import Mathlib

/-
Verification of the streaming/rendering core of the openrouter-tui repository.
Strings are shallowly embedded as lists of characters (`Str`).  The Go code
scans lines byte by byte, but every marker it tests for (`*`, `_`, backtick,
backslash, `|`, `>`, `-`, space) is ASCII, and non-ASCII runes only ever fall
through to the default copy branch, so a character-level model produces the
same output strings as the byte-level loop.
-/

namespace ORT

abbrev Str := List Char

def str (s : String) : Str := s.data

def nl : Char := '\n'

def btick : Char := Char.ofNat 96

/-- strings.Split(text, sep) for a one-character separator. -/
def splitOnChar (sep : Char) : Str → List Str
  | [] => [[]]
  | c :: rest =>
    if c = sep then [] :: splitOnChar sep rest
    else
      match splitOnChar sep rest with
      | [] => [[c]]
      | l :: ls => (c :: l) :: ls

def splitNl : Str → List Str := splitOnChar nl

/-- strings.Join(parts, sep). -/
def strIntercalate (sep : Str) : List Str → Str
  | [] => []
  | [x] => x
  | x :: xs => x ++ sep ++ strIntercalate sep xs

/-- Go whitespace class used by strings.TrimSpace, modelled on the ASCII
whitespace characters (the only ones the claims exercise). -/
def isSpace (c : Char) : Bool :=
  c = ' ' || c = '\t' || c = '\n' || c = '\r' || c = Char.ofNat 11 || c = Char.ofNat 12

/-- strings.TrimSpace. -/
def trimSpace (s : Str) : Str :=
  ((s.dropWhile isSpace).reverse.dropWhile isSpace).reverse

/-- strings.HasPrefix(s, pre). -/
def startsWithStr : Str → Str → Bool
  | _, [] => true
  | [], _ :: _ => false
  | c :: s, p :: ps => c = p && startsWithStr s ps

/-- strings.TrimPrefix(s, pre). -/
def goTrimPre (s pre : Str) : Str :=
  if startsWithStr s pre then s.drop pre.length else s

/-- unicode.IsPrint, modelled exactly on the ASCII range (printable =
0x20..0x7e); code points above 0x7f are treated as printable, which agrees
with Go on every character the claims exercise. -/
def isPrint (c : Char) : Bool :=
  if c.toNat < 0x80 then (0x20 ≤ c.toNat && c.toNat ≤ 0x7e) else true

/-- filteredString from main.go: strings.Map dropping non-printable runes. -/
def filteredString (s : Str) : Str := s.filter isPrint

/-- MarkdownParser (main.go): four span flags, the list flag, and the shared
string builder `buf`. -/
structure PState where
  inBold : Bool
  inItalic : Bool
  inCode : Bool
  inQuote : Bool
  inList : Bool
  buf : Str
deriving Repr, DecidableEq

def NewMarkdownParser : PState :=
  { inBold := false, inItalic := false, inCode := false, inQuote := false,
    inList := false, buf := [] }

/-- Reset (main.go lines 90-97): clears every flag and the builder,
independently of the incoming state. -/
def Reset (_p : PState) : PState :=
  { inBold := false, inItalic := false, inCode := false, inQuote := false,
    inList := false, buf := [] }

/-- End-of-line force close (main.go lines 261-264): if `active` append
the close marker. -/
def mlClose (st : PState) (active : Bool) : PState :=
  if active then { st with buf := st.buf ++ str "[::-]" } else st

/-- The scanning loop of markdownLine (main.go lines 201-259).  `prev` is
line[i-1] (the character at the previous byte index, whether or not it was
consumed as part of a marker), mirroring the Go index-based lookback.  The
`i++` inside the doubled-marker cases and the `i += 1` in the backtick case
are modelled by consuming the extra character and recording it as `prev`. -/
def mlGo (st : PState) (active : Bool) (prev : Option Char) : Str → PState
  | [] => mlClose st active
  | [c] =>
    if prev = some '\\' then mlClose st active
    else if c = '*' && !st.inCode then
      mlClose { st with buf := st.buf ++ (if active then str "[::-][white]" else str "[::i][white]") } (!active)
    else if c = '_' && !st.inCode then
      mlClose { st with buf := st.buf ++ (if active then str "[::-][white]" else str "[::i][white]") } (!active)
    else if c = btick && !st.inCode then
      mlClose { st with buf := st.buf ++ str "[::r]", inCode := true } (!active)
    else
      mlClose { st with buf := st.buf ++ [c] } active
  | c :: c2 :: rest =>
    if prev = some '\\' then mlGo st active (some c) (c2 :: rest)
    else if c = '*' && c2 = '*' && !st.inCode then
      mlGo { st with buf := st.buf ++ (if active then str "[::-][white]" else str "[::b][white]") } (!active) (some c2) rest
    else if c = '_' && c2 = '_' && !st.inCode then
      mlGo { st with buf := st.buf ++ (if active then str "[::-][white]" else str "[::u][white]") } (!active) (some c2) rest
    else if c = '*' && !st.inCode then
      mlGo { st with buf := st.buf ++ (if active then str "[::-][white]" else str "[::i][white]") } (!active) (some c) (c2 :: rest)
    else if c = '_' && !st.inCode then
      mlGo { st with buf := st.buf ++ (if active then str "[::-][white]" else str "[::i][white]") } (!active) (some c) (c2 :: rest)
    else if c = btick && !st.inCode then
      mlGo { st with buf := st.buf ++ str "[::r]", inCode := true } (!active) (some c2) rest
    else
      mlGo { st with buf := st.buf ++ [c] } active (some c) (c2 :: rest)

/-- markdownLine (main.go lines 190-265).  Its first action is p.buf.Reset(),
which erases anything the caller had written into the shared builder. -/
def markdownLine (p : PState) (line : Str) : PState :=
  mlGo { p with buf := [] } false none line

/-- Rendering of one table row (main.go lines 124-131): buf.Reset(), then
each non-empty trimmed cell appended as a bold run followed by a space. -/
def tableRowBuf (trimmed : Str) : Str :=
  (splitOnChar '|' trimmed).foldl
    (fun b cell =>
      let cell := trimSpace cell
      if !cell.isEmpty then b ++ str "[::b]" ++ cell ++ str "[::-] " else b)
    []

/-- The line loop of RenderMarkdown (main.go lines 104-176).  `prevLine` is
lines[i-1] (the literal previous element of the split, whether or not it was
rendered), `prevLineEmpty` the flag carried across iterations. -/
def rmGo (p : PState) (prevLine : Option Str) (prevLineEmpty : Bool) (output : Str) :
    List Str → Str × PState
  | [] => (output, p)
  | line :: rest =>
    let trimmed := trimSpace line
    let lineEmpty := trimmed.isEmpty
    if lineEmpty && prevLineEmpty then
      rmGo p (some line) prevLineEmpty output rest
    else
      let prevLineEmpty := lineEmpty
      if startsWithStr trimmed (str "```") then
        rmGo p (some line) prevLineEmpty output rest
      else if startsWithStr trimmed (str "|") && trimmed.contains '|' then
        match prevLine with
        | some pl =>
          if startsWithStr (trimSpace pl) (str "|") then
            let bufN := tableRowBuf trimmed
            rmGo { p with buf := bufN } (some line) prevLineEmpty (output ++ bufN ++ [nl]) rest
          else rmGo p (some line) prevLineEmpty output rest
        | none => rmGo p (some line) prevLineEmpty output rest
      else if startsWithStr trimmed (str "> ") then
        let p := if !p.inQuote then { p with buf := p.buf ++ str "[darkcyan]│ [::-]", inQuote := true } else p
        let p := markdownLine p (filteredString (trimmed.drop 2))
        rmGo p (some line) prevLineEmpty (output ++ p.buf ++ [nl]) rest
      else if startsWithStr trimmed (str "- ") then
        let p := if !p.inList then { p with buf := p.buf ++ str " • ", inList := true } else p
        let p := markdownLine p (filteredString (trimmed.drop 2))
        rmGo p (some line) prevLineEmpty (output ++ p.buf ++ [nl]) rest
      else if startsWithStr trimmed (str "* ") then
        let p := if !p.inList then { p with buf := p.buf ++ str " • ", inList := true } else p
        let p := markdownLine p (filteredString (trimmed.drop 2))
        rmGo p (some line) prevLineEmpty (output ++ p.buf ++ [nl]) rest
      else if lineEmpty then
        rmGo { p with inList := false, inQuote := false } (some line) prevLineEmpty (output ++ [nl]) rest
      else
        let p := markdownLine p (filteredString line)
        rmGo p (some line) prevLineEmpty (output ++ p.buf ++ [nl]) rest

/-- RenderMarkdown (main.go lines 100-179): Reset, split on newline, run the
line loop starting with prevLineEmpty = true.  Returns the produced output
and the parser state left behind. -/
def RenderMarkdown (p : PState) (text : Str) : Str × PState :=
  let p := Reset p
  rmGo p none true [] (splitNl text)

/-
The second revision of the renderer (src/unnamed/part_001) adds a streaming
flag `partialMode` (modelled as `pmode`); its buffer field is named `buffer`.
-/
namespace P1

structure P1State where
  inBold : Bool
  inItalic : Bool
  inCode : Bool
  inQuote : Bool
  inList : Bool
  buffer : Str
  pmode : Bool
deriving Repr, DecidableEq

def NewMarkdownParser : P1State :=
  { inBold := false, inItalic := false, inCode := false, inQuote := false,
    inList := false, buffer := [], pmode := false }

/-- Reset (part_001 lines 69-76): clears the five flags and the buffer but
leaves partialMode alone. -/
def Reset (p : P1State) : P1State :=
  { p with inBold := false, inItalic := false, inCode := false,
           inQuote := false, inList := false, buffer := [] }

def mlClose (st : P1State) (active : Bool) : P1State :=
  if active then { st with buffer := st.buffer ++ str "[::-]" } else st

/-- The scanning loop of markdownLine (part_001 lines 169-226): identical to
the main.go loop except that the backtick case additionally requires
!p.partialMode. -/
def mlGo (st : P1State) (active : Bool) (prev : Option Char) : Str → P1State
  | [] => mlClose st active
  | [c] =>
    if prev = some '\\' then mlClose st active
    else if c = '*' && !st.inCode then
      mlClose { st with buffer := st.buffer ++ (if active then str "[::-][white]" else str "[::i][white]") } (!active)
    else if c = '_' && !st.inCode then
      mlClose { st with buffer := st.buffer ++ (if active then str "[::-][white]" else str "[::i][white]") } (!active)
    else if c = btick && !st.inCode && !st.pmode then
      mlClose { st with buffer := st.buffer ++ str "[::r]", inCode := true } (!active)
    else
      mlClose { st with buffer := st.buffer ++ [c] } active
  | c :: c2 :: rest =>
    if prev = some '\\' then mlGo st active (some c) (c2 :: rest)
    else if c = '*' && c2 = '*' && !st.inCode then
      mlGo { st with buffer := st.buffer ++ (if active then str "[::-][white]" else str "[::b][white]") } (!active) (some c2) rest
    else if c = '_' && c2 = '_' && !st.inCode then
      mlGo { st with buffer := st.buffer ++ (if active then str "[::-][white]" else str "[::u][white]") } (!active) (some c2) rest
    else if c = '*' && !st.inCode then
      mlGo { st with buffer := st.buffer ++ (if active then str "[::-][white]" else str "[::i][white]") } (!active) (some c) (c2 :: rest)
    else if c = '_' && !st.inCode then
      mlGo { st with buffer := st.buffer ++ (if active then str "[::-][white]" else str "[::i][white]") } (!active) (some c) (c2 :: rest)
    else if c = btick && !st.inCode && !st.pmode then
      mlGo { st with buffer := st.buffer ++ str "[::r]", inCode := true } (!active) (some c2) rest
    else
      mlGo { st with buffer := st.buffer ++ [c] } active (some c) (c2 :: rest)

/-- markdownLine (part_001 lines 165-231): p.buffer.Reset() then the scan. -/
def markdownLine (p : P1State) (line : Str) : P1State :=
  mlGo { p with buffer := [] } false none line

def tableRowBuf (trimmed : Str) : Str :=
  (splitOnChar '|' trimmed).foldl
    (fun b cell =>
      let cell := trimSpace cell
      if !cell.isEmpty then b ++ str "[::b]" ++ cell ++ str "[::-] " else b)
    []

/-- The line loop of renderInternal (part_001 lines 88-154).  Empty-line runs
are only skipped when `pm` (the `partial` argument) is true; the list-item
test combines "- " and "* " in one branch. -/
def riGo (pm : Bool) (p : P1State) (prevLine : Option Str) (prevLineEmpty : Bool)
    (output : Str) : List Str → Str × P1State
  | [] => (output, p)
  | line :: rest =>
    let trimmed := trimSpace line
    let lineEmpty := trimmed.isEmpty
    if lineEmpty && prevLineEmpty && pm then
      riGo pm p (some line) prevLineEmpty output rest
    else
      let prevLineEmpty := lineEmpty
      if startsWithStr trimmed (str "```") then
        riGo pm p (some line) prevLineEmpty output rest
      else if startsWithStr trimmed (str "|") && trimmed.contains '|' then
        match prevLine with
        | some pl =>
          if startsWithStr (trimSpace pl) (str "|") then
            let bufN := tableRowBuf trimmed
            riGo pm { p with buffer := bufN } (some line) prevLineEmpty (output ++ bufN ++ [nl]) rest
          else riGo pm p (some line) prevLineEmpty output rest
        | none => riGo pm p (some line) prevLineEmpty output rest
      else if startsWithStr trimmed (str "> ") then
        let p := if !p.inQuote then { p with buffer := p.buffer ++ str "[darkcyan]│ [::-]", inQuote := true } else p
        let p := markdownLine p (filteredString (trimmed.drop 2))
        riGo pm p (some line) prevLineEmpty (output ++ p.buffer ++ [nl]) rest
      else if startsWithStr trimmed (str "- ") || startsWithStr trimmed (str "* ") then
        let p := if !p.inList then { p with buffer := p.buffer ++ str " • ", inList := true } else p
        let p := markdownLine p (filteredString (trimmed.drop 2))
        riGo pm p (some line) prevLineEmpty (output ++ p.buffer ++ [nl]) rest
      else if lineEmpty then
        riGo pm { p with inList := false, inQuote := false } (some line) prevLineEmpty (output ++ [nl]) rest
      else
        let p := markdownLine p (filteredString line)
        riGo pm p (some line) prevLineEmpty (output ++ p.buffer ++ [nl]) rest

/-- renderInternal (part_001 lines 88-154): store the partial flag, Reset,
split on newline and run the loop. -/
def renderInternal (p : P1State) (text : Str) (pm : Bool) : Str × P1State :=
  let p := { p with pmode := pm }
  let p := Reset p
  riGo pm p none true [] (splitNl text)

end P1

/-
The streaming turn (main.go handleInput lines 493-561) and the display
operations it drives.  The tview chat history stores text with colour tags;
GetText(true) strips them.  Since no tag contains a newline, the display is
modelled as the tag-stripped text, and the assistant prefix
"[blue]Assistant:[-] [yellow]" appears as its stripped form "Assistant: ".
-/

structure Msg where
  role : Str
  content : Str
deriving Repr, DecidableEq

/-- One parsed stream chunk: the Delta.Content of each choice
(CompletionResponse, main.go lines 38-44). -/
structure Chunk where
  choices : List Str
deriving Repr, DecidableEq

/-- State threaded through the SSE read loop: the accumulator
(assistantText), the content deltas extracted so far in order, and the
messages passed to appendSystemError (each surfaced as a System line). -/
structure StreamSt where
  acc : Str
  deltas : List Str
  notices : List Str
deriving Repr, DecidableEq

def initStream : StreamSt := { acc := [], deltas := [], notices := [] }

/-- The SSE read loop of handleInput (main.go lines 497-545) over a list of
already-read lines.  `unm` stands for encoding/json Unmarshal into
CompletionResponse, kept abstract: .ok gives the chunk, .error the message
text of the error.  Empty/comment lines are skipped, "data:" lines are
trimmed and parsed, the "[DONE]" sentinel stops the loop, a failed parse
surfaces "JSON parse error: ..." via appendSystemError and continues, and a
chunk with a first choice carrying non-empty content appends that delta to
the accumulator. -/
def processSSE (unm : Str → Except Str Chunk) : List Str → StreamSt → StreamSt
  | [], st => st
  | line :: rest, st =>
    if (trimSpace line).isEmpty || startsWithStr line (str ":") then
      processSSE unm rest st
    else if startsWithStr line (str "data:") then
      let jsonStr := trimSpace (goTrimPre line (str "data:"))
      if jsonStr = str "[DONE]" then st
      else
        match unm jsonStr with
        | .error e =>
          processSSE unm rest { st with notices := st.notices ++ [str "JSON parse error: " ++ e] }
        | .ok chunk =>
          match chunk.choices with
          | [] => processSSE unm rest st
          | content :: _ =>
            if !content.isEmpty then
              processSSE unm rest
                { st with acc := st.acc ++ content, deltas := st.deltas ++ [content] }
            else processSSE unm rest st
    else processSSE unm rest st

/-- The tag-stripped form of the prefix "[blue]Assistant:[-] [yellow]"
written by AppendToChatPlain (main.go lines 415-418). -/
def assistantLabel : Str := str "Assistant: "

/-- appendDelta (main.go lines 565-584): read the display text, split on
newline, drop the last line, rejoin, and append the assistant prefix followed
by the whole accumulated text.  `splitNl` never returns [], so the guarded
`lines[:len(lines)-1]` is a plain dropLast. -/
def appendDelta (display : Str) (accSnapshot : Str) : Str :=
  let lines := splitNl display
  let lines := lines.dropLast
  let newText := strIntercalate [nl] lines
  let newText := if !newText.isEmpty then newText ++ [nl] else newText
  newText ++ assistantLabel ++ accSnapshot

/-- finalizeAssistantMessage (main.go lines 587-603): drop the last display
line and append "Assistant: " followed by the full RenderMarkdown output of
the accumulated text. -/
def finalizeAssistantMessage (display : Str) (acc : Str) (p : PState) : Str :=
  let lines := (splitNl display).dropLast
  let formatted := (RenderMarkdown p acc).1
  strIntercalate [nl] (lines ++ [assistantLabel ++ formatted])

structure TurnEnd where
  msgs : List Msg
  display : Str
  notice : Option Str
deriving Repr, DecidableEq

/-- End-of-stream handling of handleInput (main.go lines 547-561): a
non-empty accumulated text is recorded as an assistant message and the
display is rewritten by finalizeAssistantMessage; an empty one leaves the
log alone and surfaces the empty-response notice through appendSystemError
(which prints via AppendToChatPlain, hence the assistant label). -/
def finishTurn (acc : Str) (msgs : List Msg) (display : Str) (p : PState) : TurnEnd :=
  if !acc.isEmpty then
    { msgs := msgs ++ [{ role := str "assistant", content := acc }],
      display := finalizeAssistantMessage display acc p,
      notice := none }
  else
    { msgs := msgs,
      display := display ++ assistantLabel ++ str "Received empty response from assistant",
      notice := some (str "Received empty response from assistant") }

/-- Number of blank lines a rendered output displays (its final newline
terminates the last line rather than opening a new one). -/
def blankLineCount (s : Str) : Nat := (splitNl s).dropLast.countP (·.isEmpty)

/-- A stand-in for encoding/json.Unmarshal into CompletionResponse,
consistent with the JSON semantics on the three payloads the malformed-chunk
scenario uses: the two well-formed chunk payloads parse to their content
deltas, anything else (in particular `{not json}`) fails to parse. -/
def jsonOracle : Str → Except Str Chunk := fun s =>
  if s = str "\x7b\"choices\":[\x7b\"delta\":\x7b\"content\":\"Hi\"\x7d\x7d]\x7d" then
    .ok { choices := [str "Hi"] }
  else if s = str "\x7b\"choices\":[\x7b\"delta\":\x7b\"content\":\" there\"\x7d\x7d]\x7d" then
    .ok { choices := [str " there"] }
  else .error (str "invalid character")

/- ------------------------------------------------------------------ -/
/- Helper lemmas                                                      -/
/- ------------------------------------------------------------------ -/

theorem splitOnChar_ne_nil (sep : Char) : ∀ s, splitOnChar sep s ≠ []
  | [] => by simp [splitOnChar]
  | c :: s => by
    by_cases h : c = sep
    · simp [splitOnChar, h]
    · simp only [splitOnChar, if_neg h]
      cases hs : splitOnChar sep s <;> simp

theorem splitNl_ne_nil (s : Str) : splitNl s ≠ [] := splitOnChar_ne_nil nl s

theorem splitNl_exists_cons (s : Str) : ∃ l ls, splitNl s = l :: ls := by
  cases h : splitNl s with
  | nil => exact absurd h (splitNl_ne_nil s)
  | cons a b => exact ⟨a, b, rfl⟩

/-- Splitting on newline distributes over a newline in the middle. -/
theorem splitNl_append (q t : Str) : splitNl (q ++ nl :: t) = splitNl q ++ splitNl t := by
  induction q with
  | nil => simp [splitNl, splitOnChar]
  | cons c q ih =>
    by_cases h : c = nl
    · subst h
      simp [splitNl, splitOnChar]
      exact ih
    · obtain ⟨l0, ls0, hq⟩ := splitNl_exists_cons q
      simp only [splitNl] at ih hq
      simp [splitNl, splitOnChar, h, ih, hq]

/-- A newline-free string splits into a single line. -/
theorem splitNl_no_nl : ∀ s : Str, nl ∉ s → splitNl s = [s] := by
  intro s hs
  induction s with
  | nil => simp [splitNl, splitOnChar]
  | cons c s ih =>
    have hc : ¬ c = nl := fun h => hs (h ▸ List.mem_cons_self c s)
    have hrest := ih (fun h => hs (List.mem_cons_of_mem c h))
    simp only [splitNl, splitOnChar, if_neg hc] at hrest ⊢
    rw [hrest]

/-- Joining with newline inverts splitting on newline. -/
theorem interc_splitNl : ∀ s : Str, strIntercalate [nl] (splitNl s) = s := by
  intro s
  induction s with
  | nil => simp [splitNl, splitOnChar, strIntercalate]
  | cons c s ih =>
    obtain ⟨l0, ls0, hq⟩ := splitNl_exists_cons s
    simp only [splitNl] at ih hq
    rw [hq] at ih
    by_cases h : c = nl
    · subst h
      simp [splitNl, splitOnChar, hq, strIntercalate]
      cases ls0 with
      | nil => simpa [strIntercalate] using ih
      | cons a b => simpa [strIntercalate] using ih
    · simp [splitNl, splitOnChar, h, hq]
      cases ls0 with
      | nil => simpa [strIntercalate] using ih
      | cons a b => simpa [strIntercalate] using ih

theorem splitNl_replicate (m : Nat) (s : Str) :
    splitNl (List.replicate m nl ++ s) = List.replicate m [] ++ splitNl s := by
  induction m with
  | zero => simp
  | succ k ih =>
    simp only [splitNl] at ih
    simp [List.replicate_succ, splitNl, splitOnChar, ih]

/-- Processing a plain (non-special) line: one inline-rendered output line. -/
theorem rmGo_step_plain (p : PState) (pl : Option Str) (pe : Bool) (out : Str)
    (line : Str) (rest : List Str)
    (h1 : (trimSpace line).isEmpty = false)
    (h2 : startsWithStr (trimSpace line) (str "```") = false)
    (h3 : startsWithStr (trimSpace line) (str "|") = false)
    (h4 : startsWithStr (trimSpace line) (str "> ") = false)
    (h5 : startsWithStr (trimSpace line) (str "- ") = false)
    (h6 : startsWithStr (trimSpace line) (str "* ") = false) :
    rmGo p pl pe out (line :: rest)
      = rmGo (markdownLine p (filteredString line)) (some line) false
          (out ++ (markdownLine p (filteredString line)).buf ++ [nl]) rest := by
  simp only [rmGo, h1, h2, h3, h4, h5, h6]
  simp

/-- Processing an empty line after a non-empty one: one blank output line,
the list/quote run state cleared. -/
theorem rmGo_step_blank (p : PState) (pl : Option Str) (out : Str) (rest : List Str) :
    rmGo p pl false out ([] :: rest)
      = rmGo { p with inList := false, inQuote := false } (some []) true (out ++ [nl]) rest := by
  simp only [rmGo]
  simp [trimSpace,
    show startsWithStr [] (str "```") = false from by decide,
    show startsWithStr [] (str "> ") = false from by decide,
    show startsWithStr [] (str "- ") = false from by decide,
    show startsWithStr [] (str "* ") = false from by decide,
    show startsWithStr [] (str "|") = false from by decide]

/-- Consecutive empty lines after the first one of a run are skipped. -/
theorem rmGo_skip (k : Nat) (p : PState) (out : Str) (ls : List Str) :
    rmGo p (some []) true out (List.replicate k [] ++ ls) = rmGo p (some []) true out ls := by
  induction k with
  | zero => simp
  | succ m ih =>
    rw [List.replicate_succ, List.cons_append]
    have h1 : rmGo p (some []) true out ([] :: (List.replicate m [] ++ ls))
        = rmGo p (some []) true out (List.replicate m [] ++ ls) := by
      simp [rmGo, trimSpace]
    rw [h1, ih]

/-- part_001 analogue of rmGo_step_plain. -/
theorem riGo_step_plain (pm : Bool) (p : P1.P1State) (pl : Option Str) (pe : Bool)
    (out : Str) (line : Str) (rest : List Str)
    (h1 : (trimSpace line).isEmpty = false)
    (h2 : startsWithStr (trimSpace line) (str "```") = false)
    (h3 : startsWithStr (trimSpace line) (str "|") = false)
    (h4 : startsWithStr (trimSpace line) (str "> ") = false)
    (h5 : startsWithStr (trimSpace line) (str "- ") = false)
    (h6 : startsWithStr (trimSpace line) (str "* ") = false) :
    P1.riGo pm p pl pe out (line :: rest)
      = P1.riGo pm (P1.markdownLine p (filteredString line)) (some line) false
          (out ++ (P1.markdownLine p (filteredString line)).buffer ++ [nl]) rest := by
  simp only [P1.riGo, h1, h2, h3, h4, h5, h6]
  simp

/-- part_001 analogue of rmGo_step_blank (the first empty line of a run is
rendered even in partial mode, since prevLineEmpty is false). -/
theorem riGo_step_blank (pm : Bool) (p : P1.P1State) (pl : Option Str) (out : Str)
    (rest : List Str) :
    P1.riGo pm p pl false out ([] :: rest)
      = P1.riGo pm { p with inList := false, inQuote := false } (some []) true (out ++ [nl]) rest := by
  simp only [P1.riGo]
  simp [trimSpace,
    show startsWithStr [] (str "```") = false from by decide,
    show startsWithStr [] (str "> ") = false from by decide,
    show startsWithStr [] (str "- ") = false from by decide,
    show startsWithStr [] (str "* ") = false from by decide,
    show startsWithStr [] (str "|") = false from by decide]

/-- part_001, partial mode: empty lines after the first of a run are
skipped. -/
theorem riGo_skip (k : Nat) (p : P1.P1State) (out : Str) (ls : List Str) :
    P1.riGo true p (some []) true out (List.replicate k [] ++ ls)
      = P1.riGo true p (some []) true out ls := by
  induction k with
  | zero => simp
  | succ m ih =>
    rw [List.replicate_succ, List.cons_append]
    have h1 : P1.riGo true p (some []) true out ([] :: (List.replicate m [] ++ ls))
        = P1.riGo true p (some []) true out (List.replicate m [] ++ ls) := by
      simp [P1.riGo, trimSpace]
    rw [h1, ih]

/-- The accumulator invariant of the SSE loop: the accumulated text is at
every point the concatenation, in order, of the deltas extracted so far. -/
theorem processSSE_acc_flatten (unm : Str → Except Str Chunk) :
    ∀ (lines : List Str) (st : StreamSt), st.acc = st.deltas.flatten →
      (processSSE unm lines st).acc = (processSSE unm lines st).deltas.flatten := by
  intro lines
  induction lines with
  | nil => intro st h; simpa [processSSE] using h
  | cons line rest ih =>
    intro st h
    simp only [processSSE]
    split
    · exact ih st h
    · split
      · split
        · exact h
        · split
          · exact ih _ (by simp [h])
          · split
            · exact ih st h
            · split
              · exact ih _ (by simp [h, List.flatten_append])
              · exact ih st h
      · exact ih st h

/- ------------------------------------------------------------------ -/
/- Claim theorems                                                      -/
/- ------------------------------------------------------------------ -/

/-- C2 counterexample: rendering the spec's own example line `a\*b*c*`
produces an output with no `*` character at all — the escaped star is not
emitted literally (the backslash is emitted instead, and the star dropped),
refuting the claim that an escaped character is emitted literally. -/
theorem escape_drops_char_counterexample :
    (markdownLine NewMarkdownParser (str "a\\*b*c*")).buf = str "a\\b[::i][white]c[::-][white]"
    ∧ (markdownLine NewMarkdownParser (str "a\\*b*c*")).buf.contains '*' = false := by
  constructor <;> decide

/-- C2 (amended): a character immediately preceded by a backslash is never
interpreted as a formatting marker, but it is dropped from the output rather
than emitted literally, while the backslash itself is emitted; on the line
`a\*b*c*` the escaped star disappears, the backslash stays, and the unescaped
star pair around `c` still toggles italics. -/
theorem escape_skips_next_char :
    (∀ (st : PState) (active : Bool) (c : Char) (rest : Str),
        mlGo st active (some '\\') (c :: rest) = mlGo st active (some c) rest)
    ∧ (markdownLine NewMarkdownParser (str "a\\*b*c*")).buf
        = str "a\\b[::i][white]c[::-][white]" := by
  constructor
  · intro st active c rest
    cases rest <;> simp [mlGo]
  · decide

/-- C3: the quote-bar and bullet prefixes are written into the shared
builder and then erased by markdownLine's buf.Reset(), so the rendered quote
line and list line carry no prefix at all: `> hi` and `- hi` both render as
plain `hi`. -/
theorem quote_and_list_lose_their_marker :
    (RenderMarkdown NewMarkdownParser (str "> hi")).1 = str "hi\n"
    ∧ (RenderMarkdown NewMarkdownParser (str "- hi")).1 = str "hi\n"
    ∧ (RenderMarkdown NewMarkdownParser (str "> hi")).1.contains '│' = false
    ∧ (RenderMarkdown NewMarkdownParser (str "- hi")).1.contains '•' = false := by
  refine ⟨?_, ?_, ?_, ?_⟩ <;> decide

/-- C4 counterexample: for the two-line table input, the first line does not
appear in the output at all — it is dropped, not rendered as a plain
paragraph line. -/
theorem table_first_line_dropped_counterexample :
    (RenderMarkdown NewMarkdownParser (str "| a | b |\n| 1 | 2 |")).1
      = str "[::b]1[::-] [::b]2[::-] \n"
    ∧ str "| a | b |" ∉ splitNl (RenderMarkdown NewMarkdownParser (str "| a | b |\n| 1 | 2 |")).1 := by
  constructor <;> decide

/-- C4 (amended): for input `| a | b |` then `| 1 | 2 |`, the second line is
rendered as bold cells each followed by a space, and the first line (with no
preceding pipe line) produces no output line at all. -/
theorem table_render_amended :
    (RenderMarkdown NewMarkdownParser (str "| a | b |\n| 1 | 2 |")).1
      = str "[::b]1[::-] [::b]2[::-] \n" := by
  decide

/-- C6: in full-render mode the first backtick opens the inline-code span but
the next backtick never closes it — the closing branch is dead code because
the case guard requires !inCode — and the character right after the opening
backtick is swallowed by the extra index increment: on ``​`x`y`` the second
backtick is emitted literally, inCode stays true, and `x` is gone.  The same
holds for the part_001 revision with partialMode = false. -/
theorem backtick_never_closes :
    (markdownLine NewMarkdownParser (str "`x`y")).buf = str "[::r]`y[::-]"
    ∧ (markdownLine NewMarkdownParser (str "`x`y")).inCode = true
    ∧ (P1.markdownLine P1.NewMarkdownParser (str "`x`y")).buffer = str "[::r]`y[::-]"
    ∧ (P1.markdownLine P1.NewMarkdownParser (str "`x`y")).inCode = true
    ∧ (P1.markdownLine { P1.NewMarkdownParser with pmode := true } (str "a`b")).buffer = str "a`b" := by
  refine ⟨?_, ?_, ?_, ?_, ?_⟩ <;> decide

/-- C1: during one turn the content deltas are appended to the accumulator
in the order they are parsed: after the stream loop the snapshot equals the
concatenation of the extracted deltas, and exactly that string, when
non-empty, is what finishTurn appends to the conversation log as the
assistant message — no delta dropped, reordered, or duplicated. -/
theorem deltas_accumulate_and_log (unm : Str → Except Str Chunk) (lines : List Str)
    (msgs : List Msg) (display : Str) (p : PState) :
    (processSSE unm lines initStream).acc = (processSSE unm lines initStream).deltas.flatten
    ∧ (finishTurn (processSSE unm lines initStream).acc msgs display p).msgs
      = (if (processSSE unm lines initStream).acc.isEmpty then msgs
         else msgs ++ [{ role := str "assistant",
                         content := (processSSE unm lines initStream).deltas.flatten }]) := by
  have h := processSSE_acc_flatten unm lines initStream rfl
  refine ⟨h, ?_⟩
  by_cases hacc : (processSSE unm lines initStream).acc.isEmpty = true
  · simp [finishTurn, hacc]
  · simp only [Bool.not_eq_true] at hacc
    simp [finishTurn, hacc, ← h]

/-- C7: at the end of a turn's stream, a non-empty accumulated text is
appended to the conversation log as an assistant message and the display is
rewritten with the full RenderMarkdown output; an empty accumulated text
leaves the log untouched and surfaces the empty-response system notice. -/
theorem finish_turn_branches (acc : Str) (msgs : List Msg) (display : Str) (p : PState) :
    finishTurn acc msgs display p =
      (if acc.isEmpty then
        { msgs := msgs,
          display := display ++ assistantLabel ++ str "Received empty response from assistant",
          notice := some (str "Received empty response from assistant") }
       else
        { msgs := msgs ++ [{ role := str "assistant", content := acc }],
          display := strIntercalate [nl] ((splitNl display).dropLast
                        ++ [assistantLabel ++ (RenderMarkdown p acc).1]),
          notice := none }) := by
  by_cases h : acc.isEmpty = true <;> simp [finishTurn, finalizeAssistantMessage, h]

/-- C8 counterexample: in partial-render mode (part_001, partial = true) the
input `x\n\n\ny`, which contains two consecutive empty lines, renders with
exactly one blank output line, not zero — only the empty lines after the
first of a run are dropped. -/
theorem partial_mode_blank_counterexample :
    (P1.renderInternal P1.NewMarkdownParser (str "x\n\n\ny") true).1 = str "x\n\ny\n"
    ∧ blankLineCount (P1.renderInternal P1.NewMarkdownParser (str "x\n\n\ny") true).1 = 1 := by
  constructor <;> decide

/-- C8 (amended): a run of two or more consecutive empty lines immediately
preceded by a non-empty line collapses to exactly one blank output line both
in full-render mode (main.go RenderMarkdown) and in partial-render mode
(part_001 renderInternal with partial = true) — in partial mode the collapse
is to one blank line, not zero. -/
theorem blank_runs_collapse (k : Nat) :
    blankLineCount (RenderMarkdown NewMarkdownParser
        (str "x" ++ List.replicate (k+3) nl ++ str "y")).1 = 1
    ∧ blankLineCount (P1.renderInternal P1.NewMarkdownParser
        (str "x" ++ List.replicate (k+3) nl ++ str "y") true).1 = 1 := by
  have htext : str "x" ++ List.replicate (k+3) nl ++ str "y"
      = str "x" ++ nl :: (List.replicate (k+2) nl ++ str "y") := by
    simp [List.replicate_succ]
  have hsplit : splitNl (str "x" ++ List.replicate (k+3) nl ++ str "y")
      = str "x" :: ([] :: (List.replicate (k+1) [] ++ [str "y"])) := by
    rw [htext, splitNl_append, splitNl_replicate,
        show splitNl (str "x") = [str "x"] from by decide,
        show splitNl (str "y") = [str "y"] from by decide]
    simp [List.replicate_succ]
  constructor
  · simp only [RenderMarkdown]
    rw [hsplit,
        rmGo_step_plain _ _ _ _ _ _ (by decide) (by decide) (by decide) (by decide)
          (by decide) (by decide),
        rmGo_step_blank, rmGo_skip,
        rmGo_step_plain _ _ _ _ _ _ (by decide) (by decide) (by decide) (by decide)
          (by decide) (by decide)]
    decide
  · simp only [P1.renderInternal]
    rw [hsplit,
        riGo_step_plain _ _ _ _ _ _ _ (by decide) (by decide) (by decide) (by decide)
          (by decide) (by decide),
        riGo_step_blank, riGo_skip,
        riGo_step_plain _ _ _ _ _ _ _ (by decide) (by decide) (by decide) (by decide)
          (by decide) (by decide)]
    decide

/-- C5 counterexample: for the stream of a valid content-delta line, the
`data: {not json}` line, and a second valid content-delta line, the loop
yields exactly the two valid deltas in order — but an error IS surfaced:
appendSystemError is invoked with a "JSON parse error" message, refuting
the claim that no error is surfaced for the malformed line. -/
theorem malformed_chunk_notice_counterexample :
    (processSSE jsonOracle
      [str "data: \x7b\"choices\":[\x7b\"delta\":\x7b\"content\":\"Hi\"\x7d\x7d]\x7d\n",
       str "data: \x7bnot json\x7d\n",
       str "data: \x7b\"choices\":[\x7b\"delta\":\x7b\"content\":\" there\"\x7d\x7d]\x7d\n"]
      initStream).deltas = [str "Hi", str " there"]
    ∧ (processSSE jsonOracle
      [str "data: \x7b\"choices\":[\x7b\"delta\":\x7b\"content\":\"Hi\"\x7d\x7d]\x7d\n",
       str "data: \x7bnot json\x7d\n",
       str "data: \x7b\"choices\":[\x7b\"delta\":\x7b\"content\":\" there\"\x7d\x7d]\x7d\n"]
      initStream).notices ≠ [] := by
  constructor <;> decide

/-- C5 (amended): for any JSON unmarshaller behaving as encoding/json does on
the three payloads — the two valid chunk payloads parse to non-empty content
deltas, the middle one fails — the loop yields exactly the two valid deltas
in order and keeps going past the malformed line, but it also surfaces one
"JSON parse error" system notice for that line via appendSystemError. -/
theorem malformed_chunk_skipped (unm : Str → Except Str Chunk) (d1 d2 e : Str)
    (h1 : unm (str "\x7b\"choices\":[\x7b\"delta\":\x7b\"content\":\"Hi\"\x7d\x7d]\x7d")
            = .ok { choices := [d1] })
    (hd1 : d1.isEmpty = false)
    (h2 : unm (str "\x7bnot json\x7d") = .error e)
    (h3 : unm (str "\x7b\"choices\":[\x7b\"delta\":\x7b\"content\":\" there\"\x7d\x7d]\x7d")
            = .ok { choices := [d2] })
    (hd2 : d2.isEmpty = false) :
    processSSE unm
      [str "data: \x7b\"choices\":[\x7b\"delta\":\x7b\"content\":\"Hi\"\x7d\x7d]\x7d\n",
       str "data: \x7bnot json\x7d\n",
       str "data: \x7b\"choices\":[\x7b\"delta\":\x7b\"content\":\" there\"\x7d\x7d]\x7d\n"]
      initStream
      = { acc := d1 ++ d2, deltas := [d1, d2],
          notices := [str "JSON parse error: " ++ e] } := by
  have e1 : trimSpace (goTrimPre
      (str "data: \x7b\"choices\":[\x7b\"delta\":\x7b\"content\":\"Hi\"\x7d\x7d]\x7d\n")
      (str "data:"))
      = str "\x7b\"choices\":[\x7b\"delta\":\x7b\"content\":\"Hi\"\x7d\x7d]\x7d" := by decide
  have e2 : trimSpace (goTrimPre (str "data: \x7bnot json\x7d\n") (str "data:"))
      = str "\x7bnot json\x7d" := by decide
  have e3 : trimSpace (goTrimPre
      (str "data: \x7b\"choices\":[\x7b\"delta\":\x7b\"content\":\" there\"\x7d\x7d]\x7d\n")
      (str "data:"))
      = str "\x7b\"choices\":[\x7b\"delta\":\x7b\"content\":\" there\"\x7d\x7d]\x7d" := by decide
  simp only [processSSE, e1, e2, e3, h1, h2, h3]
  simp +decide [hd1, hd2, initStream]

/-- C5 witness: the amended theorem applied at the concrete JSON oracle. -/
theorem malformed_chunk_skipped_witness :
    processSSE jsonOracle
      [str "data: \x7b\"choices\":[\x7b\"delta\":\x7b\"content\":\"Hi\"\x7d\x7d]\x7d\n",
       str "data: \x7bnot json\x7d\n",
       str "data: \x7b\"choices\":[\x7b\"delta\":\x7b\"content\":\" there\"\x7d\x7d]\x7d\n"]
      initStream
      = { acc := str "Hi" ++ str " there", deltas := [str "Hi", str " there"],
          notices := [str "JSON parse error: " ++ str "invalid character"] } :=
  malformed_chunk_skipped jsonOracle (str "Hi") (str " there") (str "invalid character")
    (by rfl) (by decide) (by rfl) (by rfl) (by decide)

/-- C10 counterexample: once an earlier delta contained a newline, appendDelta
no longer rewrites just the assistant region: the part of the old assistant
text before its last newline survives as a stale display line and the full
accumulated text is appended after it, duplicating that part. -/
theorem append_delta_duplicates_counterexample :
    appendDelta (str "H\n" ++ assistantLabel ++ str "a\nb") (str "a\nbc")
      ≠ str "H\n" ++ assistantLabel ++ str "a\nbc"
    ∧ appendDelta (str "H\n" ++ assistantLabel ++ str "a\nb") (str "a\nbc")
      = str "H\nAssistant: a\nAssistant: a\nbc" := by
  constructor <;> decide

/-- C10 (amended): appendDelta replaces exactly the last display line, so the
frame property holds precisely while the previous assistant region occupied a
single line: if the display is some non-empty newline-terminated text (other
than a bare newline) followed by the assistant label and a newline-free old
snapshot — or just the label and snapshot alone — then appendDelta rewrites
it to the same leading text followed by the label and the new snapshot,
leaving every earlier line unchanged and ending with label + accumulated
text. -/
theorem append_delta_frame (q accOld accNew : Str)
    (hq : q ≠ []) (hacc : nl ∉ accOld) :
    appendDelta (q ++ nl :: (assistantLabel ++ accOld)) accNew
      = q ++ nl :: (assistantLabel ++ accNew)
    ∧ appendDelta (assistantLabel ++ accOld) accNew = assistantLabel ++ accNew := by
  have hlab : nl ∉ assistantLabel ++ accOld := by
    intro hmem
    rcases List.mem_append.mp hmem with hm | hm
    · revert hm; decide
    · exact hacc hm
  constructor
  · have hsplit : splitNl (q ++ nl :: (assistantLabel ++ accOld))
        = splitNl q ++ [assistantLabel ++ accOld] := by
      rw [splitNl_append, splitNl_no_nl _ hlab]
    have hqe : q.isEmpty = false := by
      cases q with
      | nil => exact absurd rfl hq
      | cons a b => rfl
    have hie : (strIntercalate [nl] (splitNl q)).isEmpty = false := by
      rw [interc_splitNl]; exact hqe
    simp only [appendDelta, hsplit, List.dropLast_concat, interc_splitNl, hie]
    simp [hq]
  · have hsplit2 : splitNl (assistantLabel ++ accOld) = [assistantLabel ++ accOld] :=
      splitNl_no_nl _ hlab
    simp [appendDelta, hsplit2, strIntercalate]

/-- C10 witness: the amended frame property at a concrete display state. -/
theorem append_delta_frame_witness :
    (str "You: hi" : Str) ≠ [] ∧ nl ∉ str "Hel"
    ∧ appendDelta (str "You: hi" ++ nl :: (assistantLabel ++ str "Hel")) (str "Hello")
        = str "You: hi" ++ nl :: (assistantLabel ++ str "Hello") :=
  ⟨by decide, by decide,
    (append_delta_frame (str "You: hi") (str "Hel") (str "Hello") (by decide) (by decide)).1⟩

/-- C9: RenderMarkdown is a pure function of its text argument — Reset at the
start of every invocation erases all parser state, so calling it a second
time on the same text, starting from whatever state the first call left
behind, yields byte-identical output. -/
theorem render_markdown_stateless (p : PState) (text : Str) :
    (RenderMarkdown (RenderMarkdown p text).2 text).1 = (RenderMarkdown p text).1 := rfl

end ORT
